import Mathlib

/-!
Shallow embedding of the Postgres checkpoint saver
(`src/libs/checkpoint-postgres/src/index.ts`) of the langgraphjs repository.

Conventions of the embedding:
* JavaScript byte arrays (`Uint8Array`) are `List Nat`; `TextDecoder` decoding
  is either kept abstract (a `decode : Bytes → String` parameter, for metadata)
  or elided where the embedding stores the already-decoded string (channel
  names and type tags in rows).
* The injected `SerializerProtocol` is a structure of abstract functions, one
  field per argument type it is applied to in the source.
* JavaScript `undefined`-able values are `Option`; JS truthiness on strings
  (`if (checkpoint_id)`) is the `truthy` predicate (present and non-empty).
* The database and the effects of `put` / `putWrites` / `setup` are made
  explicit: queries become data (`StoreOp`, `WritesQuery`, `SetupEvent`), a
  transaction outcome is a `committed` flag (true = COMMIT, false = ROLLBACK).
-/

namespace PostgresSaver

abbrev Bytes := List Nat

/-- Checkpoint structure (shape of `Checkpoint` from `@langchain/langgraph-checkpoint`):
versioned id, timestamp, channel values/versions, versions seen, pending sends.
Channel values carry an abstract payload type `V`. -/
structure Checkpoint (V : Type) where
  v : Nat
  id : String
  ts : String
  channel_values : List (String × V)
  channel_versions : List (String × String)
  versions_seen : List (String × List (String × String))
  pending_sends : List V
deriving Repr, DecidableEq

/-- The injected serializer capability (`SerializerProtocol`): `dumpsTyped` /
`loadsTyped` as used on channel values, metadata and whole checkpoints.
`V` is the channel-value type, `M` the metadata type. -/
structure Serializer (V M : Type) where
  dumpsTyped : V → String × Bytes
  loadsTyped : String → Option Bytes → V
  dumpsMetadata : M → String × Bytes
  loadsMetadata : String → Option Bytes → M
  dumpsCheckpoint : Checkpoint V → String × Bytes

/-- The `configurable` record of a `RunnableConfig`: the three identity
components, each possibly `undefined`. -/
structure Configurable where
  thread_id : Option String
  checkpoint_ns : Option String
  checkpoint_id : Option String
deriving Repr, DecidableEq

/-- A `RunnableConfig`, reduced to the only field the saver reads. -/
structure RunnableConfig where
  configurable : Option Configurable
deriving Repr, DecidableEq

/-- JavaScript truthiness of a possibly-undefined string: truthy iff present
and non-empty. -/
def truthy : Option String → Bool
  | some s => s != ""
  | none => false

/-- Modelled from the spec: the static reserved-channel-name table
`WRITES_IDX_MAP` is imported from the `@langchain/langgraph-checkpoint`
package, whose source is not under `src/`. The spec describes it as a static
name-to-index table shared with the execution engine, with `__start__`
reserved at index 0. -/
def WRITES_IDX_MAP : List (String × Int) := [("__start__", 0)]

/-- One row of the `checkpoint_blobs` table as produced by `_dumpBlobs`:
`(thread_id, checkpoint_ns, channel, version, type, blob)`. The `thread_id`
is `Option` because `put` forwards a possibly-undefined `thread_id`. -/
structure BlobRow where
  thread_id : Option String
  checkpoint_ns : String
  channel : String
  version : String
  typeTag : String
  blob : Option Bytes
deriving Repr, DecidableEq

variable {V M : Type}

/-- Embedding of `_dumpBlobs`: one row per entry of `versions`; a channel
absent from `values` gets the sentinel pair `("empty", null)`, otherwise the
serializer's `(type, bytes)`. -/
def _dumpBlobs (serde : Serializer V M) (threadId : Option String)
    (checkpointNs : String) (values : List (String × V))
    (versions : List (String × String)) : List BlobRow :=
  versions.map (fun kv =>
    let p : String × Option Bytes :=
      match List.lookup kv.1 values with
      | some v => ((serde.dumpsTyped v).1, some (serde.dumpsTyped v).2)
      | none => ("empty", none)
    { thread_id := threadId, checkpoint_ns := checkpointNs, channel := kv.1,
      version := kv.2, typeTag := p.1, blob := p.2 })

/-- Embedding of `_loadBlobs`: drop rows whose type tag is `"empty"`, decode
the rest through the serializer. Input rows are `(channel, typeTag, bytes)`. -/
def _loadBlobs (serde : Serializer V M)
    (blobValues : List (String × String × Option Bytes)) : List (String × V) :=
  (blobValues.filter (fun kv => kv.2.1 != "empty")).map
    (fun kv => (kv.1, serde.loadsTyped kv.2.1 kv.2.2))

/-- Projection of a dumped blob row to the `(channel, type, blob)` triple that
`SELECT_SQL` hands back to `_loadBlobs`. -/
def blobRowKV (r : BlobRow) : String × String × Option Bytes :=
  (r.channel, r.typeTag, r.blob)

/-- Semantics of `Object.fromEntries` on a list of entries, as a partial map:
a later entry for the same key overwrites an earlier one. -/
def fromEntries : List (String × V) → String → Option V
  | [], _ => none
  | (k, v) :: rest, ch =>
    match fromEntries rest ch with
    | some w => some w
    | none => if k = ch then some v else none

/-- Embedding of `_dumpCheckpoint`: serialize the checkpoint with
`pending_sends` replaced by the empty list. -/
def _dumpCheckpoint (serde : Serializer V M) (checkpoint : Checkpoint V) :
    String × Bytes :=
  serde.dumpsCheckpoint { checkpoint with pending_sends := [] }

/-- Removal of every null character, the effect of
`.replace(/\u0000/g, "")`. -/
def stripNulls (s : String) : String :=
  ⟨s.data.filter (fun c => c != Char.ofNat 0)⟩

/-- Embedding of `_dumpMetadata`: serialize the metadata, decode the bytes to
text with the ambient `decode` (a `TextDecoder`), strip null characters. -/
def _dumpMetadata (decode : Bytes → String) (serde : Serializer V M)
    (metadata : M) : String :=
  stripNulls (decode (serde.dumpsMetadata metadata).2)

/-- Embedding of `_loadMetadata`: a serializer round trip on the metadata. -/
def _loadMetadata (serde : Serializer V M) (metadata : M) : M :=
  serde.loadsMetadata (serde.dumpsMetadata metadata).1
    (some (serde.dumpsMetadata metadata).2)

/-- One row of the `checkpoint_writes` table as produced by `_dumpWrites`.
Identity fields are `Option` because `putWrites` forwards possibly-undefined
`configurable` members. -/
structure WriteRow where
  thread_id : Option String
  checkpoint_ns : Option String
  checkpoint_id : Option String
  task_id : String
  idx : Int
  channel : String
  typeTag : String
  blob : Bytes
deriving Repr, DecidableEq

/-- Embedding of `_dumpWrites`: the row at batch position `idx` gets ordering
slot `WRITES_IDX_MAP[channel]` when the channel is reserved, else `idx`. -/
def _dumpWrites (serde : Serializer V M)
    (threadId checkpointNs checkpointId : Option String) (taskId : String)
    (writes : List (String × V)) : List WriteRow :=
  writes.enum.map (fun iw =>
    { thread_id := threadId, checkpoint_ns := checkpointNs,
      checkpoint_id := checkpointId, task_id := taskId,
      idx :=
        match List.lookup iw.2.1 WRITES_IDX_MAP with
        | some n => n
        | none => (iw.1 : Int),
      channel := iw.2.1, typeTag := (serde.dumpsTyped iw.2.2).1,
      blob := (serde.dumpsTyped iw.2.2).2 })

/-- Embedding of `_loadWrites`: decode each `(task_id, channel, type, bytes)`
row to a `(task_id, channel, value)` triple. -/
def _loadWrites (serde : Serializer V M)
    (writes : List (String × String × String × Option Bytes)) :
    List (String × String × V) :=
  writes.map (fun w => (w.1, w.2.1, serde.loadsTyped w.2.2.1 w.2.2.2))

/-- Embedding of `_loadCheckpoint`: spread the stored checkpoint body, then
overwrite `pending_sends` (decoded sends) and `channel_values` (loaded blobs). -/
def _loadCheckpoint (serde : Serializer V M) (checkpoint : Checkpoint V)
    (channelValues : List (String × String × Option Bytes))
    (pendingSends : List (String × Option Bytes)) : Checkpoint V :=
  { checkpoint with
    pending_sends := pendingSends.map (fun cb => serde.loadsTyped cb.1 cb.2),
    channel_values := _loadBlobs serde channelValues }

/-- A positional SQL parameter value as pushed by `_searchWhere`: either a
(possibly undefined) string value, or the metadata filter serialized as a
single JSON argument (`JSON.stringify(filter)` kept as the filter itself). -/
inductive SqlParam
  | pval (v : Option String)
  | pjson (f : List (String × String))
deriving Repr, DecidableEq

/-- One `wheres.push` / `paramValues.push` step of `_searchWhere`: append the
predicate text with the next positional parameter number, append the value. -/
def pushWhere (acc : List String × List SqlParam) (pred : String)
    (p : SqlParam) : List String × List SqlParam :=
  (acc.1 ++ [pred ++ "$" ++ toString (acc.2.length + 1)], acc.2 ++ [p])

/-- Body of `_searchWhere`, over the two projections it inspects: the
`config?.configurable` object and the `before?.configurable?.checkpoint_id`
cursor. Builds the parameterized WHERE clause and its positional argument
list in the source's fixed order. -/
def searchWhereCore (cc : Option Configurable)
    (filter : Option (List (String × String))) (bb : Option String) :
    String × List SqlParam :=
  let acc0 : List String × List SqlParam := ([], [])
  let acc1 :=
    match cc with
    | some c =>
      let a := pushWhere acc0 "thread_id = " (SqlParam.pval c.thread_id)
      let b :=
        match c.checkpoint_ns with
        | some ns => pushWhere a "checkpoint_ns = " (SqlParam.pval (some ns))
        | none => a
      match c.checkpoint_id with
      | some cid => pushWhere b "checkpoint_id = " (SqlParam.pval (some cid))
      | none => b
    | none => acc0
  let acc2 :=
    match filter with
    | some f =>
      if 0 < f.length then pushWhere acc1 "metadata @> " (SqlParam.pjson f)
      else acc1
    | none => acc1
  let acc3 :=
    match bb with
    | some cid => pushWhere acc2 "checkpoint_id < " (SqlParam.pval (some cid))
    | none => acc2
  (if 0 < acc3.1.length then "WHERE " ++ String.intercalate " AND " acc3.1
   else "", acc3.2)

/-- Embedding of `_searchWhere` on its actual arguments. -/
def _searchWhere (config : Option RunnableConfig)
    (filter : Option (List (String × String)))
    (before : Option RunnableConfig) : String × List SqlParam :=
  searchWhereCore (config.bind (fun c => c.configurable)) filter
    ((before.bind (fun c => c.configurable)).bind (fun c => c.checkpoint_id))

/-- Specification-side reading of §4.3, over the same projections: the
ordered list of (predicate text, parameter) atoms — thread-id equality when an
identity filter is present, then namespace equality when specified, then
checkpoint-id equality when specified, then metadata containment when the
filter is non-empty, then the before cursor. -/
def specAtomsCore (cc : Option Configurable)
    (filter : Option (List (String × String))) (bb : Option String) :
    List (String × SqlParam) :=
  (match cc with
   | some c =>
     [("thread_id = ", SqlParam.pval c.thread_id)]
     ++ (match c.checkpoint_ns with
         | some ns => [("checkpoint_ns = ", SqlParam.pval (some ns))]
         | none => [])
     ++ (match c.checkpoint_id with
         | some cid => [("checkpoint_id = ", SqlParam.pval (some cid))]
         | none => [])
   | none => [])
  ++ (match filter with
      | some f =>
        if 0 < f.length then [("metadata @> ", SqlParam.pjson f)] else []
      | none => [])
  ++ (match bb with
      | some cid => [("checkpoint_id < ", SqlParam.pval (some cid))]
      | none => [])

/-- The §4.3 atom list on `_searchWhere`'s actual arguments. -/
def specSearchAtoms (config : Option RunnableConfig)
    (filter : Option (List (String × String)))
    (before : Option RunnableConfig) : List (String × SqlParam) :=
  specAtomsCore (config.bind (fun c => c.configurable)) filter
    ((before.bind (fun c => c.configurable)).bind (fun c => c.checkpoint_id))

/-- Rendering of an atom list as the clause-plus-arguments pair the spec
describes: left-to-right positional numbering, empty string when no atoms. -/
def renderAtoms (atoms : List (String × SqlParam)) : String × List SqlParam :=
  (if 0 < atoms.length then
    "WHERE " ++ String.intercalate " AND "
      (atoms.enum.map (fun ia => ia.2.1 ++ "$" ++ toString (ia.1 + 1)))
   else "", atoms.map (fun a => a.2))

/-- One row of the `checkpoints` table as returned by `SELECT_SQL` (the
`CheckpointRow` interface): key columns, parent id, stored checkpoint body,
metadata, and the aggregated blob / write / send triples. -/
structure DbRow (V M : Type) where
  thread_id : String
  checkpoint_ns : String
  checkpoint_id : String
  parent_checkpoint_id : Option String
  checkpoint : Checkpoint V
  metadata : M
  channel_values : List (String × String × Option Bytes)
  pending_writes : List (String × String × String × Option Bytes)
  pending_sends : List (String × Option Bytes)

/-- Result shape of `getTuple` (`CheckpointTuple`). -/
structure CheckpointTuple (V M : Type) where
  config : RunnableConfig
  checkpoint : Checkpoint V
  metadata : M
  parentConfig : Option RunnableConfig
  pendingWrites : List (String × String × V)

/-- The destructured `thread_id` of `config.configurable ?? {}`. -/
def cfgThreadId (config : RunnableConfig) : Option String :=
  config.configurable.bind (fun c => c.thread_id)

/-- The destructured `checkpoint_ns` with its `= ""` default. -/
def cfgNs (config : RunnableConfig) : String :=
  (config.configurable.bind (fun c => c.checkpoint_ns)).getD ""

/-- The destructured `checkpoint_id` of `config.configurable ?? {}`. -/
def cfgCid (config : RunnableConfig) : Option String :=
  config.configurable.bind (fun c => c.checkpoint_id)

/-- SQL equality of a row against `thread_id = $1 AND checkpoint_ns = $2`:
a NULL (undefined) parameter matches no row. -/
def matchesThreadNs (tid : Option String) (ns : String) (r : DbRow V M) :
    Bool :=
  (some r.thread_id == tid) && (r.checkpoint_ns == ns)

/-- One comparison step of the maximum-`checkpoint_id` scan. -/
def latestStep (acc : Option (DbRow V M)) (r : DbRow V M) :
    Option (DbRow V M) :=
  match acc with
  | none => some r
  | some a => if a.checkpoint_id < r.checkpoint_id then some r else some a

/-- Semantics of `ORDER BY checkpoint_id DESC LIMIT 1` over a bag of rows:
the row with the lexically greatest `checkpoint_id`, if any. -/
def latestRow (rows : List (DbRow V M)) : Option (DbRow V M) :=
  rows.foldl latestStep none

/-- The row selection of `getTuple`: the exact `(thread, ns, id)` row when a
truthy `checkpoint_id` is given, else the lexically greatest row of the
`(thread, ns)` group. -/
def selectRow (db : List (DbRow V M)) (config : RunnableConfig) :
    Option (DbRow V M) :=
  if truthy (cfgCid config) then
    db.find? (fun r =>
      matchesThreadNs (cfgThreadId config) (cfgNs config) r
        && (some r.checkpoint_id == cfgCid config))
  else
    latestRow (db.filter (matchesThreadNs (cfgThreadId config) (cfgNs config)))

/-- Embedding of `getTuple` over an explicit database of rows: select the row,
then assemble the tuple (echoed identity, loaded checkpoint and metadata,
parent config iff the row's parent id is truthy, loaded writes). -/
def getTuple (serde : Serializer V M) (db : List (DbRow V M))
    (config : RunnableConfig) : Option (CheckpointTuple V M) :=
  match selectRow db config with
  | none => none
  | some row =>
    some
      { config :=
          { configurable :=
              some { thread_id := cfgThreadId config,
                     checkpoint_ns := some (cfgNs config),
                     checkpoint_id := some row.checkpoint_id } },
        checkpoint :=
          _loadCheckpoint serde row.checkpoint row.channel_values
            row.pending_sends,
        metadata := _loadMetadata serde row.metadata,
        parentConfig :=
          if truthy row.parent_checkpoint_id then
            some { configurable :=
                     some { thread_id := cfgThreadId config,
                            checkpoint_ns := some (cfgNs config),
                            checkpoint_id := row.parent_checkpoint_id } }
          else none,
        pendingWrites := _loadWrites serde row.pending_writes }

/-- A store operation issued by `put` inside its transaction: one
`UPSERT_CHECKPOINT_BLOBS_SQL` per blob row, then one `UPSERT_CHECKPOINTS_SQL`
carrying `(thread_id, ns, checkpoint.id, parent, body, metadata)`. -/
inductive StoreOp
  | upsertBlob (row : BlobRow)
  | upsertCheckpoint (thread_id : Option String) (checkpoint_ns : String)
      (checkpoint_id : String) (parent_checkpoint_id : Option String)
      (body : Bytes) (metadata : String)
deriving Repr, DecidableEq

/-- Embedding of `put`: error when `config.configurable` is undefined,
otherwise the next config and the ordered store operations of the
transaction. -/
def put (decode : Bytes → String) (serde : Serializer V M)
    (config : RunnableConfig) (checkpoint : Checkpoint V) (metadata : M)
    (newVersions : List (String × String)) :
    Except String (RunnableConfig × List StoreOp) :=
  match config.configurable with
  | none => Except.error "Missing \"configurable\" field in \"config\" param"
  | some c =>
    let thread_id := c.thread_id
    let checkpoint_ns := c.checkpoint_ns.getD ""
    let checkpoint_id := c.checkpoint_id
    let nextConfig : RunnableConfig :=
      { configurable :=
          some { thread_id := thread_id, checkpoint_ns := some checkpoint_ns,
                 checkpoint_id := some checkpoint.id } }
    let serializedBlobs :=
      _dumpBlobs serde thread_id checkpoint_ns checkpoint.channel_values
        newVersions
    Except.ok
      (nextConfig,
       serializedBlobs.map StoreOp.upsertBlob
         ++ [StoreOp.upsertCheckpoint thread_id checkpoint_ns checkpoint.id
               checkpoint_id (_dumpCheckpoint serde checkpoint).2
               (_dumpMetadata decode serde metadata)])

/-- Which prepared statement `putWrites` executes. -/
inductive WritesQuery
  | upsert
  | insertOnly
deriving Repr, DecidableEq

/-- The statement choice of `putWrites`: the upserting statement iff every
write's channel is a key of `WRITES_IDX_MAP`, else the append-only insert. -/
def putWritesQuery (writes : List (String × V)) : WritesQuery :=
  if writes.all (fun w => (List.lookup w.1 WRITES_IDX_MAP).isSome) then
    WritesQuery.upsert
  else WritesQuery.insertOnly

/-- Embedding of `putWrites`: the chosen statement together with the dumped
rows it is executed with (one transaction). -/
def putWrites (serde : Serializer V M) (config : RunnableConfig)
    (writes : List (String × V)) (taskId : String) :
    WritesQuery × List WriteRow :=
  (putWritesQuery writes,
   _dumpWrites serde (cfgThreadId config)
     (config.configurable.bind (fun c => c.checkpoint_ns))
     (cfgCid config) taskId writes)

/-- Whether `needle` is a prefix of `hay` (character lists). -/
def charsStartWith : List Char → List Char → Bool
  | _, [] => true
  | [], _ :: _ => false
  | h :: hs, n :: ns => (h == n) && charsStartWith hs ns

/-- Whether `needle` occurs as a contiguous substring of `hay`
(`String.prototype.includes`). -/
def hasSubstring : List Char → List Char → Bool
  | [], needle => needle.isEmpty
  | h :: t, needle => charsStartWith (h :: t) needle || hasSubstring t needle

/-- The specific driver-error condition `setup` inspects. -/
def isLedgerMissing (msg : String) : Bool :=
  hasSubstring msg.data
    ("relation \"checkpoint_migrations\" does not exist").data

/-- A statement `setup` executes inside its transaction after the version
read: running migration `v`, or recording `v` in the ledger. -/
inductive SetupEvent
  | migrate (v : Nat)
  | record (v : Nat)
deriving Repr, DecidableEq

/-- Outcome of one `setup` call: the statements executed inside the
transaction, whether it committed (true = COMMIT, false = ROLLBACK), and the
rethrown error if any. -/
structure SetupResult where
  events : List SetupEvent
  committed : Bool
  error : Option String
deriving Repr, DecidableEq

/-- The migration loop: run migration `v` then record it, in order, stopping
at the first failing statement. `migFails` / `recFails` say whether running /
recording index `v` fails. Returns the executed events and the error, if
any. -/
def runMigrations (migFails recFails : Nat → Bool) :
    List Nat → List SetupEvent × Option String
  | [] => ([], none)
  | v :: rest =>
    if migFails v then ([], some ("migration " ++ toString v ++ " failed"))
    else if recFails v then
      ([SetupEvent.migrate v], some ("recording " ++ toString v ++ " failed"))
    else
      let r := runMigrations migFails recFails rest
      (SetupEvent.migrate v :: SetupEvent.record v :: r.1, r.2)

/-- The indices the loop `for (let v = version + 1; v < n; v++)` visits. -/
def pendingFrom (version : Int) (n : Nat) : List Nat :=
  (List.range n).filter (fun v => version < (v : Int))

/-- The highest applied version as read from the ledger rows: `-1` when the
ledger is empty. -/
def versionOf : Option Nat → Int
  | some v => (v : Int)
  | none => -1

/-- Wrap the migration-loop outcome as a transaction result: COMMIT on
success, ROLLBACK and rethrow on failure. -/
def finishTx (r : List SetupEvent × Option String) : SetupResult :=
  match r.2 with
  | none => { events := r.1, committed := true, error := none }
  | some e => { events := r.1, committed := false, error := some e }

/-- Embedding of `setup` over the number `n` of migrations (`MIGRATIONS` is
imported from `./migrations.js`, not under `src/`; the algorithm depends only
on the list's length), the outcome of the ledger read (error message, or the
highest recorded version if any), and the failure oracles of the migration
loop. -/
def setup (n : Nat) (readRes : Except String (Option Nat))
    (migFails recFails : Nat → Bool) : SetupResult :=
  match readRes with
  | Except.error msg =>
    if isLedgerMissing msg then
      finishTx (runMigrations migFails recFails (pendingFrom (-1) n))
    else { events := [], committed := false, error := some msg }
  | Except.ok rows =>
    finishTx (runMigrations migFails recFails (pendingFrom (versionOf rows) n))

/-- The interleaved event list of a fully successful migration loop. -/
def interleaved : List Nat → List SetupEvent
  | [] => []
  | v :: rest => SetupEvent.migrate v :: SetupEvent.record v :: interleaved rest

/-- A concrete serializer over `Nat` values and `Nat` metadata, used to
evaluate the theorems on closed inputs. Its round trip is exact. -/
def serde0 : Serializer Nat Nat :=
  { dumpsTyped := fun n => ("nat", [n]),
    loadsTyped := fun _ b => (b.getD []).headD 0,
    dumpsMetadata := fun n => ("nat", [n]),
    loadsMetadata := fun _ b => (b.getD []).headD 0,
    dumpsCheckpoint := fun _ => ("ckpt", []) }

/-- A concrete byte decoder for closed evaluations. -/
def dec0 : Bytes → String := fun _ => "decoded"

/-- A concrete checkpoint for closed evaluations. -/
def ck0 : Checkpoint Nat :=
  { v := 1, id := "c1", ts := "2024", channel_values := [("x", 5)],
    channel_versions := [("x", "00001")], versions_seen := [],
    pending_sends := [] }

/-- A config whose `configurable` is present but carries no identity
component at all. -/
def cfgEmptyConfigurable : RunnableConfig :=
  { configurable := some { thread_id := none, checkpoint_ns := none,
                           checkpoint_id := none } }

/-- A config with no `configurable` field. -/
def cfgNoConfigurable : RunnableConfig := { configurable := none }

/-- C1 counterexample input: `put` called with a configurable that lacks a
thread id proceeds instead of throwing. -/
theorem put_no_thread_id_succeeds :
    (put dec0 serde0 cfgEmptyConfigurable ck0 0 []).isOk = true
      ∧ (put dec0 serde0 cfgEmptyConfigurable ck0 0 []).toOption.map
          (fun r => r.2.length) = some 1 :=
  ⟨rfl, rfl⟩

/-- C1 (amended): `put` throws the configuration error, performing no store
operation, exactly when the config's `configurable` field is undefined; when
`configurable` is present — even without a thread id — `put` returns the next
config and the transaction's store operations. -/
theorem put_configurable_guard (decode : Bytes → String)
    (serde : Serializer V M) (config : RunnableConfig)
    (checkpoint : Checkpoint V) (metadata : M)
    (newVersions : List (String × String)) :
    (config.configurable = none →
      put decode serde config checkpoint metadata newVersions
        = Except.error "Missing \"configurable\" field in \"config\" param")
    ∧ (∀ c, config.configurable = some c →
        ∃ r, put decode serde config checkpoint metadata newVersions
          = Except.ok r) := by
  constructor
  · intro h
    simp [put, h]
  · intro c h
    unfold put
    rw [h]
    exact ⟨_, rfl⟩

/-- C1 witness: the amended guard evaluated at a closed config with no
`configurable` field. -/
theorem put_configurable_guard_witness :
    put dec0 serde0 cfgNoConfigurable ck0 0 []
      = Except.error "Missing \"configurable\" field in \"config\" param" :=
  (put_configurable_guard dec0 serde0 cfgNoConfigurable ck0 0 []).1 rfl

/-- C4: `putWrites` chooses the upserting statement iff every write in the
batch targets a channel of the static reserved-name table `WRITES_IDX_MAP`,
and the append-only insert statement otherwise. -/
theorem putWrites_query_choice (serde : Serializer V M)
    (config : RunnableConfig) (writes : List (String × V)) (taskId : String) :
    ((putWrites serde config writes taskId).1 = WritesQuery.upsert
      ↔ ∀ w ∈ writes, (List.lookup w.1 WRITES_IDX_MAP).isSome = true)
    ∧ ((putWrites serde config writes taskId).1 = WritesQuery.insertOnly
      ↔ ¬ ∀ w ∈ writes, (List.lookup w.1 WRITES_IDX_MAP).isSome = true) := by
  constructor
  · constructor
    · intro h w hw
      by_cases hall :
          writes.all (fun w => (List.lookup w.1 WRITES_IDX_MAP).isSome) = true
      · exact List.all_eq_true.mp hall w hw
      · simp [putWrites, putWritesQuery, hall] at h
    · intro h
      have : writes.all
          (fun w => (List.lookup w.1 WRITES_IDX_MAP).isSome) = true :=
        List.all_eq_true.mpr h
      simp [putWrites, putWritesQuery, this]
  · constructor
    · intro h hall
      have : writes.all
          (fun w => (List.lookup w.1 WRITES_IDX_MAP).isSome) = true :=
        List.all_eq_true.mpr hall
      simp [putWrites, putWritesQuery, this] at h
    · intro h
      by_cases hall :
          writes.all (fun w => (List.lookup w.1 WRITES_IDX_MAP).isSome) = true
      · exact absurd (List.all_eq_true.mp hall) h
      · simp [putWrites, putWritesQuery, hall]

/-- C4 witness: a reserved-only batch takes the upsert statement, a batch with
a non-reserved channel takes the insert-only statement. -/
theorem putWrites_query_choice_witness :
    (putWrites serde0 cfgEmptyConfigurable [("__start__", 7)] "task").1
        = WritesQuery.upsert
      ∧ (putWrites serde0 cfgEmptyConfigurable
          [("__start__", 7), ("custom_chan", 8)] "task").1
        = WritesQuery.insertOnly :=
  ⟨(putWrites_query_choice serde0 cfgEmptyConfigurable [("__start__", 7)]
      "task").1.mpr (by decide),
   (putWrites_query_choice serde0 cfgEmptyConfigurable
      [("__start__", 7), ("custom_chan", 8)] "task").2.mpr (by decide)⟩

/-- C10: an empty batch makes the every-write-is-reserved test vacuously true,
so `putWrites` chooses the upserting statement and executes it with an empty
row list. -/
theorem putWrites_empty_batch (serde : Serializer V M)
    (config : RunnableConfig) (taskId : String) :
    putWrites serde config ([] : List (String × V)) taskId
      = (WritesQuery.upsert, []) := rfl

/-- C7: `_dumpWrites` gives the row at batch position `idx` the ordering slot
from `WRITES_IDX_MAP` when its channel is reserved and the batch position
otherwise; in particular the batch `[(start, v0), (custom_chan, v1)]` gets
slots `[0, 1]`. -/
theorem dumpWrites_idx_resolution (serde : Serializer V M)
    (tid ns cid : Option String) (taskId : String)
    (writes : List (String × V)) (v0 v1 : V) :
    (∀ i : Nat,
      ((_dumpWrites serde tid ns cid taskId writes)[i]?).map
          (fun r => r.idx)
        = (writes[i]?).map (fun w =>
            match List.lookup w.1 WRITES_IDX_MAP with
            | some n => n
            | none => (i : Int)))
    ∧ (_dumpWrites serde tid ns cid taskId
          [("__start__", v0), ("custom_chan", v1)]).map (fun r => r.idx)
        = [0, 1] := by
  constructor
  · intro i
    simp only [_dumpWrites, List.getElem?_map, List.getElem?_enum]
    cases writes[i]? <;> rfl
  · rfl

/-- C8: `_dumpCheckpoint` serializes the checkpoint with `pending_sends`
replaced by the empty list, every other field unchanged. -/
theorem dumpCheckpoint_zeroes_pending_sends (serde : Serializer V M)
    (checkpoint : Checkpoint V) :
    ∃ zeroed : Checkpoint V,
      _dumpCheckpoint serde checkpoint = serde.dumpsCheckpoint zeroed
      ∧ zeroed.pending_sends = []
      ∧ zeroed.v = checkpoint.v
      ∧ zeroed.id = checkpoint.id
      ∧ zeroed.ts = checkpoint.ts
      ∧ zeroed.channel_values = checkpoint.channel_values
      ∧ zeroed.channel_versions = checkpoint.channel_versions
      ∧ zeroed.versions_seen = checkpoint.versions_seen :=
  ⟨{ checkpoint with pending_sends := [] },
   rfl, rfl, rfl, rfl, rfl, rfl, rfl, rfl⟩

/-- C9: `_dumpMetadata` is the serializer's byte output decoded to text with
every null character removed, so its result never contains a null
character. -/
theorem dumpMetadata_strips_nulls (decode : Bytes → String)
    (serde : Serializer V M) (metadata : M) :
    _dumpMetadata decode serde metadata
        = stripNulls (decode (serde.dumpsMetadata metadata).2)
      ∧ ∀ c ∈ (_dumpMetadata decode serde metadata).data, c ≠ Char.ofNat 0 := by
  refine ⟨rfl, ?_⟩
  intro c hc
  have : c ∈ (decode (serde.dumpsMetadata metadata).2).data.filter
      (fun c => c != Char.ofNat 0) := hc
  have h2 := (List.mem_filter.mp this).2
  simpa using h2

theorem searchWhereCore_eq_render (cc : Option Configurable)
    (filter : Option (List (String × String))) (bb : Option String) :
    searchWhereCore cc filter bb = renderAtoms (specAtomsCore cc filter bb) := by
  rcases cc with _ | ⟨t, n, ci⟩
  · rcases bb with _ | bci <;> rcases filter with _ | f <;>
      first
      | rfl
      | (by_cases hf : 0 < f.length <;>
          simp [searchWhereCore, specAtomsCore, renderAtoms, pushWhere, hf] <;>
          rfl)
  · rcases n with _ | n <;> rcases ci with _ | ci <;>
      rcases bb with _ | bci <;> rcases filter with _ | f <;>
      first
      | rfl
      | (by_cases hf : 0 < f.length <;>
          simp [searchWhereCore, specAtomsCore, renderAtoms, pushWhere, hf] <;>
          rfl)

/-- C6: `_searchWhere` emits exactly the §4.3 atoms — thread-id equality (when
an identity filter is present), namespace equality (when specified),
checkpoint-id equality (when specified), metadata containment as a single
JSON argument (when the filter is non-empty), then checkpoint-id-less-than
(when a before cursor is given) — with positional parameter numbers running
left-to-right matching the argument list, and yields the empty predicate when
no filter at all is present. -/
theorem searchWhere_fixed_order (config : Option RunnableConfig)
    (filter : Option (List (String × String)))
    (before : Option RunnableConfig) :
    _searchWhere config filter before
        = renderAtoms (specSearchAtoms config filter before)
      ∧ ((config.bind (fun c => c.configurable)) = none →
         (∀ f, filter = some f → f = []) →
         ((before.bind (fun c => c.configurable)).bind
             (fun c => c.checkpoint_id)) = none →
         _searchWhere config filter before = ("", [])) := by
  refine ⟨searchWhereCore_eq_render _ _ _, ?_⟩
  intro hc hf hb
  unfold _searchWhere
  rw [hc, hb]
  rcases filter with _ | f
  · rfl
  · rw [hf f rfl]
    rfl

/-- C6 witness: the fixed-order clause on a closed input with identity and
metadata filters, and the empty predicate on the absent-filter input. -/
theorem searchWhere_fixed_order_witness :
    _searchWhere
        (some { configurable :=
                  some { thread_id := some "t1", checkpoint_ns := some "ns",
                         checkpoint_id := none } })
        (some [("step", "1")]) none
      = ("WHERE thread_id = $1 AND checkpoint_ns = $2 AND metadata @> $3",
         [SqlParam.pval (some "t1"), SqlParam.pval (some "ns"),
          SqlParam.pjson [("step", "1")]])
    ∧ _searchWhere none none none = ("", []) :=
  ⟨(searchWhere_fixed_order
      (some { configurable :=
                some { thread_id := some "t1", checkpoint_ns := some "ns",
                       checkpoint_id := none } })
      (some [("step", "1")]) none).1.trans rfl,
   (searchWhere_fixed_order none none none).2 rfl
     (fun f h => Option.noConfusion h) rfl⟩

theorem loadBlobs_dumpBlobs_lookup (serde : Serializer V M)
    (rt : ∀ v : V,
      serde.loadsTyped (serde.dumpsTyped v).1 (some (serde.dumpsTyped v).2)
        = v)
    (tid : Option String) (ns : String) (values : List (String × V))
    (versions : List (String × String)) (ch : String) :
    fromEntries
        (_loadBlobs serde
          ((_dumpBlobs serde tid ns values versions).map blobRowKV)) ch
      = if ch ∈ versions.map Prod.fst then
          match List.lookup ch values with
          | some v =>
            if (serde.dumpsTyped v).1 != "empty" then some v else none
          | none => none
        else none := by
  induction versions with
  | nil => rfl
  | cons kv rest ih =>
    obtain ⟨k, ver⟩ := kv
    simp only [_dumpBlobs, List.map_cons, _loadBlobs, List.filter_cons,
      blobRowKV] at ih ⊢
    by_cases hck : ch = k
    · subst hck
      cases h : List.lookup ch values with
      | none =>
        simp only [h]
        have hempty : (("empty" : String) != "empty") = false := rfl
        simp only [hempty, Bool.false_eq_true, if_false, ih, List.mem_cons,
          List.map_cons]
        simp [h]
      | some v =>
        by_cases he : (serde.dumpsTyped v).1 = "empty"
        · have hb : ((serde.dumpsTyped v).1 != "empty") = false := by
            simp [he]
          simp only [h, hb, Bool.false_eq_true, if_false, ih, List.mem_cons,
            List.map_cons]
          simp [h, hb]
        · have hb : ((serde.dumpsTyped v).1 != "empty") = true := by
            simp [he]
          simp only [h, hb, if_true, List.map_cons, List.mem_cons]
          rw [fromEntries]
          simp only [rt v, ih, h, hb, if_true]
          cases hmem : decide (ch ∈ rest.map Prod.fst) with
          | true =>
            have : ch ∈ rest.map Prod.fst := of_decide_eq_true hmem
            simp [this]
          | false =>
            have : ch ∉ rest.map Prod.fst := of_decide_eq_false hmem
            simp [this]
    · have hkc : ¬k = ch := fun hh => hck hh.symm
      cases h : List.lookup k values with
      | none =>
        have hempty : (("empty" : String) != "empty") = false := rfl
        simp only [h, hempty, Bool.false_eq_true, if_false, ih, List.mem_cons,
          List.map_cons]
        simp only [or_iff_right hck]
      | some v =>
        by_cases he : (serde.dumpsTyped v).1 = "empty"
        · have hb : ((serde.dumpsTyped v).1 != "empty") = false := by
            simp [he]
          simp only [h, hb, Bool.false_eq_true, if_false, ih, List.mem_cons,
            List.map_cons]
          simp only [or_iff_right hck]
        · have hb : ((serde.dumpsTyped v).1 != "empty") = true := by
            simp [he]
          simp only [h, hb, if_true, List.map_cons, List.mem_cons]
          rw [fromEntries]
          simp only [ih]
          simp only [or_iff_right hck]
          by_cases hm : ch ∈ List.map Prod.fst rest
          · simp only [hm, if_true]
            cases List.lookup ch values with
            | none => simp [hkc]
            | some w =>
              by_cases hw : ((serde.dumpsTyped w).1 != "empty") = true <;>
                simp [hw, hkc]
          · simp [hm, hkc]

/-- C2: `_dumpBlobs` emits exactly one row per channel in `versions` — the
sentinel pair `("empty", null)` when the channel has no entry in `values`,
else the serializer's `(type, bytes)` — and `_loadBlobs` applied to those rows
yields exactly the restriction of `values` to the channels present in
`versions`, omitting every channel whose stored type tag is `"empty"`. -/
theorem blobs_roundtrip (serde : Serializer V M)
    (rt : ∀ v : V,
      serde.loadsTyped (serde.dumpsTyped v).1 (some (serde.dumpsTyped v).2)
        = v)
    (tid : Option String) (ns : String) (values : List (String × V))
    (versions : List (String × String)) :
    (∀ i : Nat,
      (_dumpBlobs serde tid ns values versions)[i]?
        = (versions[i]?).map (fun kv =>
            match List.lookup kv.1 values with
            | some v =>
              { thread_id := tid, checkpoint_ns := ns, channel := kv.1,
                version := kv.2, typeTag := (serde.dumpsTyped v).1,
                blob := some (serde.dumpsTyped v).2 }
            | none =>
              { thread_id := tid, checkpoint_ns := ns, channel := kv.1,
                version := kv.2, typeTag := "empty", blob := none }))
    ∧ (∀ ch,
      fromEntries
          (_loadBlobs serde
            ((_dumpBlobs serde tid ns values versions).map blobRowKV)) ch
        = if ch ∈ versions.map Prod.fst then
            match List.lookup ch values with
            | some v =>
              if (serde.dumpsTyped v).1 != "empty" then some v else none
            | none => none
          else none) := by
  constructor
  · intro i
    simp only [_dumpBlobs, List.getElem?_map]
    cases versions[i]? with
    | none => rfl
    | some kv => cases h : List.lookup kv.1 values <;> simp [h]
  · intro ch
    exact loadBlobs_dumpBlobs_lookup serde rt tid ns values versions ch

/-- C2 witness: the round trip evaluated with a concrete serializer on
`values = [(x, 5)]`, `versions = [(x, v1), (y, v2)]` — channel `x` survives
with its value, the version-bumped channel `y` is stored as the sentinel and
omitted on reload. -/
theorem blobs_roundtrip_witness :
    fromEntries
        (_loadBlobs serde0
          ((_dumpBlobs serde0 (some "t") "" [("x", 5)]
            [("x", "v1"), ("y", "v2")]).map blobRowKV)) "x" = some 5
    ∧ fromEntries
        (_loadBlobs serde0
          ((_dumpBlobs serde0 (some "t") "" [("x", 5)]
            [("x", "v1"), ("y", "v2")]).map blobRowKV)) "y" = none :=
  ⟨((blobs_roundtrip serde0 (fun _ => rfl) (some "t") "" [("x", 5)]
      [("x", "v1"), ("y", "v2")]).2 "x").trans (by decide),
   ((blobs_roundtrip serde0 (fun _ => rfl) (some "t") "" [("x", 5)]
      [("x", "v1"), ("y", "v2")]).2 "y").trans (by decide)⟩

theorem runMigrations_no_failures (migFails recFails : Nat → Bool)
    (hm : ∀ v, migFails v = false) (hr : ∀ v, recFails v = false)
    (l : List Nat) :
    runMigrations migFails recFails l = (interleaved l, none) := by
  induction l with
  | nil => rfl
  | cons v rest ih =>
    simp [runMigrations, hm v, hr v, ih, interleaved]

theorem finishTx_committed_iff (r : List SetupEvent × Option String) :
    (finishTx r).committed = true ↔ (finishTx r).error = none := by
  obtain ⟨evs, err⟩ := r
  cases err <;> simp [finishTx]

/-- The constantly-false failure oracle: every statement succeeds. -/
def noFail : Nat → Bool := fun _ => false

/-- C5: `setup` treats the ledger as absent (version `-1`) only when the read
failure matches the relation-does-not-exist condition and rethrows (after
rollback, with nothing executed) any other read failure; it executes every
migration from `version + 1` to the end of the list, recording each index,
inside one transaction that commits exactly when no statement failed — any
failure rolls the whole transaction back. -/
theorem setup_migration_algorithm (n : Nat) (migFails recFails : Nat → Bool) :
    (∀ msg, isLedgerMissing msg = false →
      setup n (Except.error msg) migFails recFails
        = { events := [], committed := false, error := some msg })
    ∧ (∀ msg, isLedgerMissing msg = true →
      setup n (Except.error msg) migFails recFails
        = setup n (Except.ok none) migFails recFails)
    ∧ (∀ rows, (∀ v, migFails v = false) → (∀ v, recFails v = false) →
      setup n (Except.ok rows) migFails recFails
        = { events := interleaved (pendingFrom (versionOf rows) n),
            committed := true, error := none })
    ∧ (∀ readRes, (setup n readRes migFails recFails).committed = true
        ↔ (setup n readRes migFails recFails).error = none) := by
  refine ⟨?_, ?_, ?_, ?_⟩
  · intro msg h
    simp [setup, h]
  · intro msg h
    simp [setup, h, versionOf]
  · intro rows hm hr
    simp [setup, runMigrations_no_failures migFails recFails hm hr, finishTx]
  · intro readRes
    cases readRes with
    | error msg =>
      by_cases h : isLedgerMissing msg
      · simp only [setup, h, if_true]
        exact finishTx_committed_iff _
      · simp [setup, h]
    | ok rows =>
      simp only [setup]
      exact finishTx_committed_iff _

/-- C5 witness: a non-matching read failure is rethrown with nothing executed,
and a successful empty-ledger read applies and records migrations 0 and 1 of
a two-entry list in order, committing. -/
theorem setup_migration_algorithm_witness :
    setup 2 (Except.error "boom") noFail noFail
      = { events := [], committed := false, error := some "boom" }
    ∧ setup 2 (Except.ok none) noFail noFail
      = { events := [SetupEvent.migrate 0, SetupEvent.record 0,
                     SetupEvent.migrate 1, SetupEvent.record 1],
          committed := true, error := none } :=
  ⟨(setup_migration_algorithm 2 noFail noFail).1 "boom" (by decide),
   ((setup_migration_algorithm 2 noFail noFail).2.2.1 none (fun _ => rfl)
     (fun _ => rfl)).trans (by decide)⟩

/-- SQL row-match semantics of the whole `getTuple` WHERE clause: thread and
namespace must match, and, when a truthy `checkpoint_id` is given, the
checkpoint id as well. -/
def rowMatchesQuery (config : RunnableConfig) (r : DbRow V M) : Bool :=
  matchesThreadNs (cfgThreadId config) (cfgNs config) r
    && (!truthy (cfgCid config) || (some r.checkpoint_id == cfgCid config))

theorem latestRow_fold (rows : List (DbRow V M)) :
    ∀ (acc : Option (DbRow V M)) (r : DbRow V M),
      rows.foldl latestStep acc = some r →
      match acc with
      | none => r ∈ rows ∧ ∀ x ∈ rows, x.checkpoint_id ≤ r.checkpoint_id
      | some a =>
          (r = a ∨ r ∈ rows) ∧ a.checkpoint_id ≤ r.checkpoint_id
            ∧ ∀ x ∈ rows, x.checkpoint_id ≤ r.checkpoint_id := by
  induction rows with
  | nil =>
    intro acc r h
    cases acc with
    | none => exact absurd h (by simp)
    | some a =>
      simp only [List.foldl_nil] at h
      injection h with h2
      subst h2
      exact ⟨Or.inl rfl, le_refl _, by simp⟩
  | cons y rest ih =>
    intro acc r h
    rw [List.foldl_cons] at h
    cases acc with
    | none =>
      have H := ih (latestStep none y) r h
      obtain ⟨h1, h2, h3⟩ := H
      constructor
      · rcases h1 with rfl | hmem
        · exact List.mem_cons_self _ _
        · exact List.mem_cons_of_mem _ hmem
      · intro x hx
        rcases List.mem_cons.mp hx with rfl | hx
        · exact h2
        · exact h3 x hx
    | some a =>
      by_cases hlt : a.checkpoint_id < y.checkpoint_id
      · have hstep : latestStep (some a) y = some y := by
          simp [latestStep, hlt]
        rw [hstep] at h
        have H := ih (some y) r h
        obtain ⟨h1, h2, h3⟩ := H
        refine ⟨?_, le_trans (le_of_lt hlt) h2, ?_⟩
        · rcases h1 with rfl | hmem
          · exact Or.inr (List.mem_cons_self _ _)
          · exact Or.inr (List.mem_cons_of_mem _ hmem)
        · intro x hx
          rcases List.mem_cons.mp hx with rfl | hx
          · exact h2
          · exact h3 x hx
      · have hstep : latestStep (some a) y = some a := by
          simp [latestStep, hlt]
        rw [hstep] at h
        have H := ih (some a) r h
        obtain ⟨h1, h2, h3⟩ := H
        refine ⟨?_, h2, ?_⟩
        · rcases h1 with rfl | hmem
          · exact Or.inl rfl
          · exact Or.inr (List.mem_cons_of_mem _ hmem)
        · intro x hx
          rcases List.mem_cons.mp hx with rfl | hx
          · exact le_trans (not_lt.mp hlt) h2
          · exact h3 x hx

theorem latestRow_spec (rows : List (DbRow V M)) (r : DbRow V M)
    (h : latestRow rows = some r) :
    r ∈ rows ∧ ∀ x ∈ rows, x.checkpoint_id ≤ r.checkpoint_id :=
  latestRow_fold rows none r h

/-- C3 (amended): when a truthy (present, non-empty) `checkpoint_id` is given
the selected row carries exactly that `(thread_id, checkpoint_ns,
checkpoint_id)`; when the `checkpoint_id` is absent (or empty, which JS
truthiness treats as absent) the selected row is the lexically greatest of the
`(thread_id, checkpoint_ns)` group; when no row matches, `getTuple` returns
`none`, never an error; and the returned identity echoes the input thread id
and namespace with the resolved `checkpoint_id`, with a parent identity
present iff the row's `parent_checkpoint_id` is truthy (present and
non-empty). -/
theorem getTuple_resolution (serde : Serializer V M) (db : List (DbRow V M))
    (config : RunnableConfig) :
    (∀ r, truthy (cfgCid config) = true → selectRow db config = some r →
      some r.thread_id = cfgThreadId config
        ∧ r.checkpoint_ns = cfgNs config
        ∧ some r.checkpoint_id = cfgCid config)
    ∧ (∀ r, truthy (cfgCid config) = false → selectRow db config = some r →
      r ∈ db ∧ some r.thread_id = cfgThreadId config
        ∧ r.checkpoint_ns = cfgNs config
        ∧ ∀ x ∈ db, some x.thread_id = cfgThreadId config →
            x.checkpoint_ns = cfgNs config →
            x.checkpoint_id ≤ r.checkpoint_id)
    ∧ ((∀ r ∈ db, rowMatchesQuery config r = false) →
        getTuple serde db config = none)
    ∧ (∀ r, selectRow db config = some r →
        ∃ t, getTuple serde db config = some t
          ∧ t.config.configurable
              = some { thread_id := cfgThreadId config,
                       checkpoint_ns := some (cfgNs config),
                       checkpoint_id := some r.checkpoint_id }
          ∧ t.parentConfig.isSome = truthy r.parent_checkpoint_id) := by
  refine ⟨?_, ?_, ?_, ?_⟩
  · intro r htr hsel
    rw [selectRow, htr, if_pos rfl] at hsel
    have hp := List.find?_some hsel
    have hand := Bool.and_eq_true_iff.mp hp
    have hand2 := Bool.and_eq_true_iff.mp hand.1
    exact ⟨(beq_iff_eq.mp hand2.1), (beq_iff_eq.mp hand2.2),
      (beq_iff_eq.mp hand.2)⟩
  · intro r htr hsel
    rw [selectRow, htr] at hsel
    simp only [Bool.false_eq_true, if_false] at hsel
    obtain ⟨hmem, hmax⟩ := latestRow_spec _ r hsel
    have hmem2 := List.mem_filter.mp hmem
    have hand := Bool.and_eq_true_iff.mp hmem2.2
    refine ⟨hmem2.1, beq_iff_eq.mp hand.1, beq_iff_eq.mp hand.2, ?_⟩
    intro x hx hxt hxn
    exact hmax x (List.mem_filter.mpr
      ⟨hx, Bool.and_eq_true_iff.mpr ⟨beq_iff_eq.mpr hxt, beq_iff_eq.mpr hxn⟩⟩)
  · intro hnone
    have hsel : selectRow db config = none := by
      rw [selectRow]
      by_cases htr : truthy (cfgCid config) = true
      · rw [htr, if_pos rfl]
        rw [List.find?_eq_none]
        intro x hx
        have := hnone x hx
        rw [rowMatchesQuery, htr] at this
        simp only [Bool.not_true, Bool.false_or] at this
        intro hcontra
        rw [this] at hcontra
        exact Bool.false_ne_true hcontra
      · rw [Bool.not_eq_true] at htr
        rw [htr]
        simp only [Bool.false_eq_true, if_false]
        have hfilter :
            db.filter (matchesThreadNs (cfgThreadId config) (cfgNs config))
              = [] := by
          rw [List.filter_eq_nil]
          intro x hx
          have := hnone x hx
          rw [rowMatchesQuery, htr] at this
          simp only [Bool.not_false, Bool.true_or, Bool.and_true] at this
          rw [this]
          exact Bool.false_ne_true
        rw [hfilter]
        rfl
    rw [getTuple, hsel]
  · intro r hsel
    rw [getTuple, hsel]
    exact ⟨_, rfl, rfl,
      by cases htp : truthy r.parent_checkpoint_id <;> simp [htp]⟩

/-- A concrete stored row with checkpoint id `"a"` and no parent. -/
def dbRow1 : DbRow Nat Nat :=
  { thread_id := "t", checkpoint_ns := "", checkpoint_id := "a",
    parent_checkpoint_id := none, checkpoint := ck0, metadata := 0,
    channel_values := [], pending_writes := [], pending_sends := [] }

/-- The same row with an empty-string `parent_checkpoint_id`. -/
def dbRow2 : DbRow Nat Nat :=
  { dbRow1 with parent_checkpoint_id := some "" }

/-- A config carrying an empty-string `checkpoint_id`. -/
def cfgCidEmpty : RunnableConfig :=
  { configurable := some { thread_id := some "t", checkpoint_ns := none,
                           checkpoint_id := some "" } }

/-- A config carrying only a thread id. -/
def cfgThreadOnly : RunnableConfig :=
  { configurable := some { thread_id := some "t", checkpoint_ns := none,
                           checkpoint_id := none } }

/-- C3 counterexample: a given empty-string `checkpoint_id` is falsy, so
`getTuple` takes the latest-row branch and resolves checkpoint `"a"` instead
of selecting the row with exactly the given id; and a row with an
empty-string `parent_checkpoint_id` (a parent id the row does have) yields no
parent identity, because the code tests the parent id for truthiness. -/
theorem getTuple_truthiness_counterexample :
    (¬ ∀ t : CheckpointTuple Nat Nat,
        getTuple serde0 [dbRow1] cfgCidEmpty = some t →
          t.config.configurable.bind (fun c => c.checkpoint_id)
            = cfgCid cfgCidEmpty)
    ∧ (¬ ∀ t : CheckpointTuple Nat Nat,
        getTuple serde0 [dbRow2] cfgThreadOnly = some t →
          t.parentConfig.isSome = true) := by
  constructor
  · intro h
    exact absurd (h _ rfl) (by decide)
  · intro h
    exact absurd (h _ rfl) (by decide)

/-- C3 witness: the amended resolution evaluated on a one-row database (the
latest-row branch finds the row) and on the empty database (absent result,
not an error). -/
theorem getTuple_resolution_witness :
    (∃ t : CheckpointTuple Nat Nat,
      getTuple serde0 [dbRow1] cfgThreadOnly = some t)
    ∧ getTuple serde0 ([] : List (DbRow Nat Nat)) cfgThreadOnly = none :=
  ⟨Exists.elim
      ((getTuple_resolution serde0 [dbRow1] cfgThreadOnly).2.2.2 dbRow1 rfl)
      (fun t h => ⟨t, h.1⟩),
   (getTuple_resolution serde0 ([] : List (DbRow Nat Nat)) cfgThreadOnly).2.2.1
     (fun r hr => absurd hr (List.not_mem_nil r))⟩

end PostgresSaver
